import Mathlib

/-!
# habitfield: the streak-update rule, verified over a shallow embedding

The development follows the Go sources `habitfield.go` (the version the tests and
`cmd/habitfield/main.go` exercise, 48-hour reset threshold) and `habit.go` (the
name-based variant, 24-hour reset threshold).

* `time.Now()` is an explicit argument `now`.
* The storm database handle `t.db` is an explicit store value of type `DB`,
  threaded through every operation.
* A Go `error` is an `Option String` holding the message; `nil` is `none`.
* `int32` values are integers, and `++` wraps modulo `2^32` (`wrapInt32`).
-/

namespace Habitfield

/-! ## The `time` package, as far as the sources use it -/

/-- A `time.Time`: an instant in nanoseconds since the Unix epoch together with
the UTC offset (seconds east of Greenwich) of the zone it is presented in. -/
structure Time where
  wall : Int
  offset : Int
deriving DecidableEq, Repr

/-- A calendar date of the proleptic Gregorian calendar. -/
structure Civil where
  year : Int
  month : Int
  day : Int
deriving DecidableEq, Repr

/-- The 100-year block (0..3) of a day of a 400-year era; the era starts on a
1 March, so its fourth century is the one that carries the extra leap day. -/
def centuryOfEra (doe : Int) : Int := if doe / 36524 = 4 then 3 else doe / 36524

/-- Day within the 100-year block. -/
def dayOfCentury (doe : Int) : Int := doe - 36524 * centuryOfEra doe

/-- The year (0..3) of a day of a 4-year cycle; the fourth year carries the leap day. -/
def yearOfCycle (doq : Int) : Int := if doq / 365 = 4 then 3 else doq / 365

/-- Day of the year, counted from 1 March (0..365), of a day of a 400-year era. -/
def dayOfYear (doe : Int) : Int :=
  dayOfCentury doe % 1461 - 365 * yearOfCycle (dayOfCentury doe % 1461)

/-- Year of the era (0..399), counted from 1 March. -/
def yearOfEra (doe : Int) : Int :=
  100 * centuryOfEra doe + 4 * (dayOfCentury doe / 1461) + yearOfCycle (dayOfCentury doe % 1461)

/-- Month index of a day of the March-based year: 0 is March, 11 is February. -/
def monthIndex (doy : Int) : Int := (5 * doy + 2) / 153

/-- Day of the month (1..31) of a day of the March-based year. -/
def dayOfMonth (doy : Int) : Int := doy - (153 * monthIndex doy + 2) / 5 + 1

/-- The calendar date of a day number counted from 1970-01-01 (day 0). -/
def civilFromDays (z : Int) : Civil :=
  let n := z + 719468
  let doe := n % 146097
  let doy := dayOfYear doe
  let mp := monthIndex doy
  let m := if mp < 10 then mp + 3 else mp - 9
  let y := yearOfEra doe + 400 * (n / 146097)
  { year := if m ≤ 2 then y + 1 else y, month := m, day := dayOfMonth doy }

/-- The day number, counted from 1970-01-01, of a calendar date: the usual closed
formula, with which `civilFromDays` is cross-checked. -/
def daysFromCivil (c : Civil) : Int :=
  let y := if c.month ≤ 2 then c.year - 1 else c.year
  let mp := if c.month ≤ 2 then c.month + 9 else c.month - 3
  let doy := (153 * mp + 2) / 5 + c.day - 1
  let doe := (y % 400) * 365 + (y % 400) / 4 - (y % 400) / 100 + doy
  (y / 400) * 146097 + doe - 719468

namespace Time

/-- Number of the local calendar day of `t`, counted from 1970-01-01. -/
def localDays (t : Time) : Int := (t.wall / 1000000000 + t.offset) / 86400

/-- The receiver's calendar date in its own zone (`t.Date()`). -/
def Date (t : Time) : Civil := civilFromDays t.localDays

/-- Go's `t.Year()`. -/
def Year (t : Time) : Int := t.Date.year

/-- Go's `t.Month()`, 1 for January. -/
def Month (t : Time) : Int := t.Date.month

/-- Go's `t.Day()`: the day of the month. -/
def Day (t : Time) : Int := t.Date.day

/-- Go's `t.Sub(u)`: the elapsed `time.Duration` in nanoseconds, saturating at
the bounds of `int64`. -/
def Sub (t u : Time) : Int :=
  if t.wall - u.wall < -9223372036854775808 then -9223372036854775808
  else if 9223372036854775807 < t.wall - u.wall then 9223372036854775807
  else t.wall - u.wall

/-- Go's `t.AddDate(0, 0, days)` in a zone with a fixed offset: the same clock
reading `days` calendar days later (earlier when negative). -/
def AddDays (t : Time) (days : Int) : Time :=
  { wall := t.wall + days * 86400000000000, offset := t.offset }

/-- Same calendar day: same year, same month and same day of the month. -/
def SameCalendarDay (t u : Time) : Prop :=
  t.Year = u.Year ∧ t.Month = u.Month ∧ t.Day = u.Day

instance (t u : Time) : Decidable (SameCalendarDay t u) := by
  unfold SameCalendarDay; infer_instance

end Time

/-- The test `d.Hours() > h` on a `time.Duration` of `d` nanoseconds, for the
thresholds `h` of the sources (24 and 48). Go computes `Hours()` as
`float64(d / Hour) + float64(d % Hour) / (60 * 60 * 1e9)`. The hour count is
below `2^22` and exact; the fraction is 0 or lies between `2.7e-13` and
`1 - 2.7e-13`, while `float64` values near 24 and 48 are at most `2^-47`
(about `7.1e-15`) apart. So the sum exceeds `h` exactly when `d` exceeds `h`
hours counted in nanoseconds, which is what is computed here. -/
def hoursExceed (d : Int) (h : Int) : Bool := decide (h * 3600000000000 < d)

/-! ## The store

storm is an external collaborator; the sources only call `Save`, `One` and
`Update` on it. The store is an in-memory table that meets the contract the
specification gives for it. Input/output failures of the database file are
outside the model: the only errors the table returns are the two sentinel
errors the sources test for. -/

/-- The record type `Habit` of both source files. `ID` is a Go `int`,
`Streak` a Go `int32`. -/
structure Habit where
  ID : Int
  Name : String
  LastRecordedEntry : Time
  Streak : Int
deriving DecidableEq, Repr

/-- Errors returned by the store: the sentinels `storm.ErrAlreadyExists` and
`storm.ErrNotFound`, and any other failure with its message. -/
inductive StormErr where
  | ErrAlreadyExists
  | ErrNotFound
  | Other (msg : String)
deriving DecidableEq, Repr

/-- The text `err.Error()` of a store error. -/
def StormErr.Error : StormErr → String
  | .ErrAlreadyExists => "already exists"
  | .ErrNotFound => "not found"
  | .Other msg => msg

/-- The database behind `t.db`: the stored records in insertion order and the
counter the store draws identifiers from. -/
structure DB where
  records : List Habit
  seq : Int
deriving DecidableEq, Repr

namespace DB

/-- A freshly opened, empty database. -/
def empty : DB := { records := [], seq := 0 }

/-- Modelled from the spec: storm's `Save` is not part of the sources. §6 gives
`create(record) -> ok | AlreadyExists | StoreError`, §2 "create (fail if name
already exists)", §3 "`id`: integer, assigned by the store on creation".
The record is stored under the next identifier, and the caller's copy (passed
by pointer) receives that identifier; every caller in the sources passes a
record whose `ID` is still zero. -/
def Save (db : DB) (habit : Habit) : Except StormErr (DB × Habit) :=
  if db.records.any (fun r => r.Name == habit.Name) then
    .error .ErrAlreadyExists
  else
    let saved := { habit with ID := db.seq + 1 }
    .ok ({ records := db.records ++ [saved], seq := db.seq + 1 }, saved)

/-- Modelled from the spec: storm's `One("Name", name, &habit)` is not part of
the sources. §6 gives `find_by_name(name) -> record | NotFound | StoreError`,
§4.2 "Exact, case-sensitive match on `name`". -/
def One (db : DB) (name : String) : Except StormErr Habit :=
  match db.records.find? (fun r => r.Name == name) with
  | some r => .ok r
  | none => .error .ErrNotFound

/-- Modelled from the spec: storm's `Update` is not part of the sources. §6 gives
`update(record) -> ok | StoreError`, §4.1 "a full-record update against the
store (not a partial patch)". The record is addressed by its identifier; a
missing identifier is the store's not-found error. -/
def Update (db : DB) (habit : Habit) : Except StormErr DB :=
  if db.records.any (fun r => r.ID == habit.ID) then
    .ok { db with records := db.records.map (fun r => if r.ID == habit.ID then habit else r) }
  else
    .error .ErrNotFound

end DB

/-! ## Machine integers -/

/-- The value of an `int32` after an arithmetic result `x` is stored in it. -/
def wrapInt32 (x : Int) : Int := (x + 2147483648) % 4294967296 - 2147483648

/-- The largest `int32`. -/
def maxInt32 : Int := 2147483647

/-- The smallest `int32`. -/
def minInt32 : Int := -2147483648

/-! ## `ProcessUserInput` (identical in `habitfield.go` and `habit.go`) -/

/-- What `PrintHelp` of `habitfield.go` writes. -/
def PrintHelp : String :=
  "Welcome to your personal habit tracker!!\n\n" ++
  "To add a habit, run \x60-add <habitName>\x60.\n" ++
  "To list all habits, run \x60-list\x60.\n\n"

/-- The result of `ProcessUserInput`: the two returned values, what was
written to `writer`, and whether the package-level `ListHabits()` was called. -/
structure Processed where
  habit : String
  err : Option String
  written : String
  listed : Bool
deriving DecidableEq, Repr

/-- Go's `strings.Join(elems, sep)`. -/
def stringsJoin (elems : List String) (sep : String) : String := sep.intercalate elems

/-- `ProcessUserInput(userInput, writer)`; `help` is the text `PrintHelp` of the
same file writes. Indexing `userInput[0]` on an empty slice is a run-time
panic, which is `none`. -/
def ProcessUserInput (help : String) (userInput : List String) : Option Processed :=
  match userInput with
  | [] => none
  | first :: rest =>
    if first = "habit" then
      if userInput.length > 1 then
        if rest.head? = some "help" then
          some { habit := "", err := some "Hope this is helpful!", written := help,
                 listed := false }
        else if rest.head? = some "list" then
          some { habit := "", err := some "Your habits are listed above", written := "",
                 listed := true }
        else
          some { habit := stringsJoin rest " ", err := none, written := "", listed := false }
      else
        some { habit := "",
               err := some ("Habit is a command line tool for tracking habits. " ++
                 "To get started, type \x27habit help\x27"),
               written := "", listed := false }
    else
      some { habit := "", err := some (first ++ " is not a habit command"), written := "",
             listed := false }

/-! ## `habitfield.go`: the record-based tracker, 48-hour threshold -/

/-- What a tracker method leaves behind: the store after the call and the two
returned values. -/
structure Outcome where
  db : DB
  habit : Habit
  err : Option String
deriving DecidableEq, Repr

/-- `(t *Tracker) AddHabit(habit Habit) (Habit, error)` of `habitfield.go`. -/
def AddHabit (t : DB) (habit : Habit) : Outcome :=
  match t.Save habit with
  | .error err =>
    if err = StormErr.ErrAlreadyExists then
      { db := t, habit := habit, err := some ("habit already exists: " ++ habit.Name) }
    else
      { db := t, habit := habit, err := some ("failed to save habit: " ++ err.Error) }
  | .ok (t2, saved) => { db := t2, habit := saved, err := none }

/-- `(t *Tracker) GetHabit(habit Habit) (Habit, error)` of `habitfield.go`. -/
def GetHabit (t : DB) (habit : Habit) : Habit × Option String :=
  match t.One habit.Name with
  | .error err =>
    if err = StormErr.ErrNotFound then
      (habit, some ("habit not found: " ++ habit.Name))
    else
      (habit, some ("failed to get habit: " ++ err.Error))
  | .ok found => (found, none)

/-- `(t *Tracker) UpdateHabit(habit Habit) (Habit, error)` of `habitfield.go`,
with `time.Now()` supplied as `now`. -/
def UpdateHabit (t : DB) (now : Time) (habit : Habit) : Outcome :=
  match GetHabit t habit with
  | (habit, some err) => { db := t, habit := habit, err := some err }
  | (habit, none) =>
    if now.Day = habit.LastRecordedEntry.Day then
      { db := t, habit := habit, err := some "habit already recorded for today" }
    else
      let habit :=
        if hoursExceed (now.Sub habit.LastRecordedEntry) 48 then { habit with Streak := 0 }
        else habit
      let habit := { habit with LastRecordedEntry := now }
      let habit := { habit with Streak := wrapInt32 (habit.Streak + 1) }
      match t.Update habit with
      | .error err =>
        { db := t, habit := habit, err := some ("failed to update habit: " ++ err.Error) }
      | .ok t2 => { db := t2, habit := habit, err := none }

/-- One call on the tracker of `habitfield.go`. -/
inductive Call where
  | add (habit : Habit)
  | update (now : Time) (habit : Habit)
deriving DecidableEq, Repr

/-- The store after one call. -/
def step (t : DB) : Call → DB
  | .add habit => (AddHabit t habit).db
  | .update now habit => (UpdateHabit t now habit).db

/-- The store after a sequence of calls, first call first. -/
def run (t : DB) (calls : List Call) : DB := calls.foldl step t

/-- The records the `AddHabit` calls of a sequence were given. -/
def addedHabits : List Call → List Habit
  | [] => []
  | .add habit :: rest => habit :: addedHabits rest
  | .update _ _ :: rest => addedHabits rest

/-! ## `habit.go`: the name-based tracker, 24-hour threshold -/

namespace HabitGo

/-- What a method of `habit.go` leaves behind: the store, the returned values
and the lines printed to standard output. -/
structure Outcome where
  db : DB
  habit : Habit
  err : Option String
  stdout : List String
deriving DecidableEq, Repr

/-- What `PrintHelp` of `habit.go` writes. -/
def PrintHelp : String :=
  "Welcome to your personal habit tracker!!\n\n" ++
  "To add a habit, run \x60habit <habit>\x60.\n" ++
  "To list all habits, run \x60habit list\x60.\n\n"

/-- The zero `time.Time`: 1 January of year 1, 00:00:00 UTC. -/
def zeroTime : Time := { wall := -62135596800000000000, offset := 0 }

/-- The zero value of `Habit` (`var habit Habit`). -/
def zeroHabit : Habit := { ID := 0, Name := "", LastRecordedEntry := zeroTime, Streak := 0 }

/-- `(t *Tracker) AddHabit(name string) error` of `habit.go`; the returned
record is the one handed to the store. -/
def AddHabit (t : DB) (now : Time) (name : String) : Outcome :=
  let habit : Habit := { ID := 0, Name := name, LastRecordedEntry := now, Streak := 1 }
  match t.Save habit with
  | .error err =>
    if err = StormErr.ErrAlreadyExists then
      { db := t, habit := habit, err := some ("habit already exists: " ++ name), stdout := [] }
    else
      { db := t, habit := habit, err := some ("failed to save habit: " ++ err.Error),
        stdout := [] }
  | .ok (t2, saved) => { db := t2, habit := saved, err := none, stdout := [] }

/-- `(t *Tracker) GetHabit(name string) (Habit, error)` of `habit.go`. -/
def GetHabit (t : DB) (name : String) : Habit × Option String :=
  match t.One name with
  | .error err =>
    if err = StormErr.ErrNotFound then
      (zeroHabit, some ("habit not found: " ++ name))
    else
      (zeroHabit, some ("failed to get habit: " ++ err.Error))
  | .ok found => (found, none)

/-- `(t *Tracker) UpdateHabit(name string) (Habit, error)` of `habit.go`, with
`time.Now()` supplied as `now`. -/
def UpdateHabit (t : DB) (now : Time) (name : String) : Outcome :=
  match GetHabit t name with
  | (habit, some err) => { db := t, habit := habit, err := some err, stdout := [] }
  | (habit, none) =>
    if now.Day = habit.LastRecordedEntry.Day then
      { db := t, habit := habit, err := some "habit already recorded for today", stdout := [] }
    else
      let reset := hoursExceed (now.Sub habit.LastRecordedEntry) 24
      let printed :=
        if reset then
          ["Your streak for " ++ habit.Name ++ " has been reset! Your previous streak was " ++
            toString habit.Streak ++ " days - Try to beat it!"]
        else []
      let habit := if reset then { habit with Streak := 0 } else habit
      let habit := { habit with LastRecordedEntry := now }
      let habit := { habit with Streak := wrapInt32 (habit.Streak + 1) }
      match t.Update habit with
      | .error err =>
        { db := t, habit := habit, err := some ("failed to update habit: " ++ err.Error),
          stdout := printed }
      | .ok t2 => { db := t2, habit := habit, err := none, stdout := printed ++ ["Habit updated!"] }

end HabitGo

/-! ## Auxiliary notions used in the statements -/

/-- How the day of the year `e` of a day relates to the day of the year `d` of
the day `k` days before it: both lie in a year of 365 or 366 days, and `e` is
either `k` days further in the same year or within the first `k` days of the
next one. -/
def Shifted (d e k : Int) : Prop :=
  0 ≤ d ∧ d ≤ 365 ∧ 0 ≤ e ∧ e ≤ 365 ∧
    (e = d + k ∨ (e < k ∧ (d + k - e = 365 ∨ d + k - e = 366)))

/-- The store invariant: names are unique, identifiers are unique, and every
identifier was drawn from the counter. -/
def DB.WF (db : DB) : Prop :=
  (db.records.map (fun r => r.Name)).Nodup ∧ (db.records.map (fun r => r.ID)).Nodup ∧
    ∀ r ∈ db.records, r.ID ≤ db.seq

/-- The record `UpdateHabit` writes back for the stored record `r` when the
call is not rejected, with the reset threshold in hours as a parameter. -/
def advanced (hours : Int) (now : Time) (r : Habit) : Habit :=
  { r with
    LastRecordedEntry := now
    Streak := wrapInt32 ((if hoursExceed (now.Sub r.LastRecordedEntry) hours then 0
      else r.Streak) + 1) }

/-- The record `h` as `Save` stores it: under the next identifier. -/
def stamped (db : DB) (h : Habit) : Habit := { h with ID := db.seq + 1 }

/-- The table after `Save` stored `h`. -/
def inserted (db : DB) (h : Habit) : DB :=
  { records := db.records ++ [stamped db h], seq := db.seq + 1 }

/-- The table after the record with the identifier of `h` is replaced by `h`. -/
def replaced (db : DB) (h : Habit) : DB :=
  { db with records := db.records.map (fun r => if r.ID == h.ID then h else r) }

/-! ## Sample values -/

/-- 2024-01-15 12:00:00 UTC. -/
def jan15 : Time := { wall := 1705320000000000000, offset := 0 }

/-- 2024-02-15 12:00:00 UTC, thirty-one days after `jan15`. -/
def feb15 : Time := { wall := 1707998400000000000, offset := 0 }

/-- A store holding the single record `name` with the given timestamp and streak. -/
def storeWith (name : String) (last : Time) (streak : Int) : DB :=
  { records := [{ ID := 1, Name := name, LastRecordedEntry := last, Streak := streak }], seq := 1 }

/-- A caller-side record for `name`, as `main.go` builds it. -/
def probe (name : String) (now : Time) : Habit :=
  { ID := 0, Name := name, LastRecordedEntry := now, Streak := 1 }

/-! ## Facts about the calendar -/

theorem yearOfCycle_cases (doq : Int) (h0 : 0 ≤ doq) (h1 : doq ≤ 1460) :
    (yearOfCycle doq = 0 ∧ doq < 365) ∨ (yearOfCycle doq = 1 ∧ 365 ≤ doq ∧ doq < 730) ∨
    (yearOfCycle doq = 2 ∧ 730 ≤ doq ∧ doq < 1095) ∨ (yearOfCycle doq = 3 ∧ 1095 ≤ doq) := by
  unfold yearOfCycle
  split_ifs <;> omega

theorem centuryOfEra_cases (doe : Int) (h0 : 0 ≤ doe) (h1 : doe < 146097) :
    (centuryOfEra doe = 0 ∧ doe < 36524) ∨ (centuryOfEra doe = 1 ∧ 36524 ≤ doe ∧ doe < 73048) ∨
    (centuryOfEra doe = 2 ∧ 73048 ≤ doe ∧ doe < 109572) ∨ (centuryOfEra doe = 3 ∧ 109572 ≤ doe) := by
  unfold centuryOfEra
  split_ifs <;> omega

theorem shift_cycle (doq k : Int) (h0 : 0 ≤ doq) (hk1 : 1 ≤ k) (_hk2 : k ≤ 27)
    (h1 : doq + k ≤ 1460) :
    Shifted (doq - 365 * yearOfCycle doq) (doq + k - 365 * yearOfCycle (doq + k)) k := by
  unfold Shifted
  rcases yearOfCycle_cases doq h0 (by omega) with h | h | h | h <;>
  rcases yearOfCycle_cases (doq + k) (by omega) h1 with g | g | g | g <;>
  rw [h.1, g.1] <;> omega

theorem shift_century (doc k : Int) (hk1 : 1 ≤ k) (hk2 : k ≤ 27) :
    Shifted (doc % 1461 - 365 * yearOfCycle (doc % 1461))
      ((doc + k) % 1461 - 365 * yearOfCycle ((doc + k) % 1461)) k := by
  have hq : (doc + k) / 1461 = doc / 1461 ∨ (doc + k) / 1461 = doc / 1461 + 1 := by omega
  rcases hq with hq | hq
  · have he : (doc + k) % 1461 = doc % 1461 + k := by omega
    rw [he]
    exact shift_cycle _ _ (by omega) hk1 hk2 (by omega)
  · have he : (doc + k) % 1461 = doc % 1461 + k - 1461 := by omega
    unfold Shifted
    rcases yearOfCycle_cases (doc % 1461) (by omega) (by omega) with h | h | h | h <;>
    rcases yearOfCycle_cases ((doc + k) % 1461) (by omega) (by omega) with g | g | g | g <;>
    rw [h.1, g.1] <;> omega

theorem shift_era (doe k : Int) (h0 : 0 ≤ doe) (hk1 : 1 ≤ k) (hk2 : k ≤ 27)
    (h1 : doe + k < 146097) :
    Shifted (dayOfYear doe) (dayOfYear (doe + k)) k := by
  unfold dayOfYear
  rcases centuryOfEra_cases doe h0 (by omega) with h | h | h | h <;>
  rcases centuryOfEra_cases (doe + k) (by omega) h1 with g | g | g | g <;>
  first
  | omega
  | (have hc : dayOfCentury (doe + k) = dayOfCentury doe + k := by
      unfold dayOfCentury; rw [h.1, g.1]; omega
     rw [hc]
     exact shift_century _ _ hk1 hk2)
  | (have hc : dayOfCentury (doe + k) = dayOfCentury doe + k - 36524 := by
      unfold dayOfCentury; rw [h.1, g.1]; omega
     have hd : 36524 ≤ dayOfCentury doe + k ∧ dayOfCentury doe ≤ 36523 := by
      unfold dayOfCentury at hc ⊢; rw [h.1] at hc ⊢; rw [g.1] at hc; omega
     rw [hc]
     unfold Shifted
     rcases yearOfCycle_cases (dayOfCentury doe % 1461) (by omega) (by omega)
       with a | a | a | a <;>
     rcases yearOfCycle_cases ((dayOfCentury doe + k - 36524) % 1461) (by omega) (by omega)
       with b | b | b | b <;>
     rw [a.1, b.1] <;> omega)

theorem shift_days (n k : Int) (hk1 : 1 ≤ k) (hk2 : k ≤ 27) :
    Shifted (dayOfYear (n % 146097)) (dayOfYear ((n + k) % 146097)) k := by
  have hq : (n + k) % 146097 = n % 146097 + k ∨ (n + k) % 146097 = n % 146097 + k - 146097 := by
    omega
  rcases hq with hq | hq
  · rw [hq]
    exact shift_era _ _ (by omega) hk1 hk2 (by omega)
  · rw [hq]
    unfold Shifted dayOfYear
    rcases centuryOfEra_cases (n % 146097) (by omega) (by omega) with h | h | h | h <;>
    rcases centuryOfEra_cases (n % 146097 + k - 146097) (by omega) (by omega) with g | g | g | g <;>
    first
    | omega
    | (unfold dayOfCentury
       rw [h.1, g.1]
       rcases yearOfCycle_cases ((n % 146097 - 36524 * 3) % 1461) (by omega) (by omega)
         with a | a | a | a <;>
       rcases yearOfCycle_cases ((n % 146097 + k - 146097 - 36524 * 0) % 1461) (by omega)
         (by omega) with b | b | b | b <;>
       rw [a.1, b.1] <;> omega)

theorem dayOfMonth_cases (d : Int) (h0 : 0 ≤ d) (h1 : d ≤ 365) :
    (dayOfMonth d = d + 1 ∧ d < 31) ∨ (dayOfMonth d = d - 30 ∧ 31 ≤ d ∧ d < 61) ∨
    (dayOfMonth d = d - 60 ∧ 61 ≤ d ∧ d < 92) ∨ (dayOfMonth d = d - 91 ∧ 92 ≤ d ∧ d < 122) ∨
    (dayOfMonth d = d - 121 ∧ 122 ≤ d ∧ d < 153) ∨ (dayOfMonth d = d - 152 ∧ 153 ≤ d ∧ d < 184) ∨
    (dayOfMonth d = d - 183 ∧ 184 ≤ d ∧ d < 214) ∨ (dayOfMonth d = d - 213 ∧ 214 ≤ d ∧ d < 245) ∨
    (dayOfMonth d = d - 244 ∧ 245 ≤ d ∧ d < 275) ∨ (dayOfMonth d = d - 274 ∧ 275 ≤ d ∧ d < 306) ∨
    (dayOfMonth d = d - 305 ∧ 306 ≤ d ∧ d < 337) ∨ (dayOfMonth d = d - 336 ∧ 337 ≤ d) := by
  unfold dayOfMonth monthIndex
  have hm : 0 ≤ (5 * d + 2) / 153 ∧ (5 * d + 2) / 153 ≤ 11 := by omega
  generalize hq : (5 * d + 2) / 153 = q at hm ⊢
  obtain ⟨hq0, hq1⟩ := hm
  interval_cases q
  · left; omega
  · right; left; omega
  · right; right; left; omega
  · right; right; right; left; omega
  · right; right; right; right; left; omega
  · right; right; right; right; right; left; omega
  · right; right; right; right; right; right; left; omega
  · right; right; right; right; right; right; right; left; omega
  · right; right; right; right; right; right; right; right; left; omega
  · right; right; right; right; right; right; right; right; right; left; omega
  · right; right; right; right; right; right; right; right; right; right; left; omega
  · right; right; right; right; right; right; right; right; right; right; right; omega

theorem dayOfMonth_shift (d e k : Int) (hk1 : 1 ≤ k) (hk2 : k ≤ 27) (h : Shifted d e k) :
    dayOfMonth e ≠ dayOfMonth d := by
  unfold Shifted at h
  obtain ⟨hd0, hd1, he0, he1, h⟩ := h
  rcases dayOfMonth_cases d hd0 hd1 with a | a | a | a | a | a | a | a | a | a | a | a <;>
  rcases dayOfMonth_cases e he0 he1 with b | b | b | b | b | b | b | b | b | b | b | b <;>
  rw [a.1, b.1] <;> omega

theorem monthIndex_range (d : Int) (h0 : 0 ≤ d) (h1 : d ≤ 365) :
    0 ≤ monthIndex d ∧ monthIndex d ≤ 11 := by
  unfold monthIndex
  omega

theorem yearOfEra_eq (doe : Int) (h0 : 0 ≤ doe) (h1 : doe < 146097) :
    0 ≤ yearOfEra doe ∧ yearOfEra doe ≤ 399 ∧ 0 ≤ dayOfYear doe ∧ dayOfYear doe ≤ 365 ∧
    yearOfEra doe * 365 + yearOfEra doe / 4 - yearOfEra doe / 100 + dayOfYear doe = doe := by
  unfold yearOfEra dayOfYear
  have hdoc : dayOfCentury doe = doe - 36524 * centuryOfEra doe := rfl
  rcases centuryOfEra_cases doe h0 h1 with h | h | h | h <;>
  rcases yearOfCycle_cases (dayOfCentury doe % 1461) (by omega) (by omega) with g | g | g | g <;>
  rw [h.1, g.1] <;> rw [h.1] at hdoc <;> omega

/-- The calendar date computed for a day number is the date whose day number,
by the closed formula, is that number. -/
theorem daysFromCivil_civilFromDays (z : Int) : daysFromCivil (civilFromDays z) = z := by
  have hdoe : 0 ≤ (z + 719468) % 146097 ∧ (z + 719468) % 146097 < 146097 := by omega
  obtain ⟨hy0, hy1, hd0, hd1, hsum⟩ := yearOfEra_eq ((z + 719468) % 146097) hdoe.1 hdoe.2
  obtain ⟨hm0, hm1⟩ := monthIndex_range _ hd0 hd1
  have hmdef : monthIndex (dayOfYear ((z + 719468) % 146097))
      = (5 * dayOfYear ((z + 719468) % 146097) + 2) / 153 := rfl
  unfold daysFromCivil civilFromDays
  simp only
  unfold dayOfMonth
  generalize monthIndex (dayOfYear ((z + 719468) % 146097)) = mp at hm0 hm1 hmdef ⊢
  generalize dayOfYear ((z + 719468) % 146097) = doy at hd0 hd1 hsum hmdef ⊢
  generalize yearOfEra ((z + 719468) % 146097) = yoe at hy0 hy1 hsum ⊢
  have hE : (yoe + 400 * ((z + 719468) / 146097)) / 400 = (z + 719468) / 146097 := by omega
  have hM : (yoe + 400 * ((z + 719468) / 146097)) % 400 = yoe := by omega
  interval_cases mp <;> simp [hE, hM] <;> omega

/-- Months run from 1 to 12 and days of the month from 1 to 31. -/
theorem civilFromDays_valid (z : Int) :
    1 ≤ (civilFromDays z).month ∧ (civilFromDays z).month ≤ 12 ∧
    1 ≤ (civilFromDays z).day ∧ (civilFromDays z).day ≤ 31 := by
  have hdoe : 0 ≤ (z + 719468) % 146097 ∧ (z + 719468) % 146097 < 146097 := by omega
  obtain ⟨_, _, hd0, hd1, _⟩ := yearOfEra_eq ((z + 719468) % 146097) hdoe.1 hdoe.2
  obtain ⟨hm0, hm1⟩ := monthIndex_range _ hd0 hd1
  unfold civilFromDays
  simp only
  refine ⟨?_, ?_, ?_⟩
  · split_ifs <;> omega
  · split_ifs <;> omega
  · rcases dayOfMonth_cases _ hd0 hd1 with a | a | a | a | a | a | a | a | a | a | a | a <;>
    rw [a.1] <;> omega

/-- Known dates: the Unix epoch and the day before it, leap days of 2000 and
2024, the missing leap days of 1900 and 2100, and the zero `time.Time`. -/
theorem civilFromDays_samples :
    civilFromDays 0 = { year := 1970, month := 1, day := 1 } ∧
    civilFromDays (-1) = { year := 1969, month := 12, day := 31 } ∧
    civilFromDays 11016 = { year := 2000, month := 2, day := 29 } ∧
    civilFromDays 19782 = { year := 2024, month := 2, day := 29 } ∧
    civilFromDays 19783 = { year := 2024, month := 3, day := 1 } ∧
    civilFromDays (-25509) = { year := 1900, month := 2, day := 28 } ∧
    civilFromDays (-25508) = { year := 1900, month := 3, day := 1 } ∧
    civilFromDays 47540 = { year := 2100, month := 2, day := 28 } ∧
    civilFromDays 47541 = { year := 2100, month := 3, day := 1 } ∧
    civilFromDays (-719162) = { year := 1, month := 1, day := 1 } ∧
    jan15.Date = { year := 2024, month := 1, day := 15 } ∧
    feb15.Date = { year := 2024, month := 2, day := 15 } := by
  decide

theorem localDays_AddDays (t : Time) (k : Int) : (t.AddDays k).localDays = t.localDays + k := by
  unfold Time.localDays Time.AddDays
  simp only
  omega

theorem Day_eq (t : Time) :
    t.Day = dayOfMonth (dayOfYear ((t.localDays + 719468) % 146097)) := rfl

theorem Day_AddDays_ne (t : Time) (k : Int) (hk1 : 1 ≤ k) (hk2 : k ≤ 27) :
    t.Day ≠ (t.AddDays (-k)).Day := by
  rw [Day_eq, Day_eq, localDays_AddDays]
  have h := shift_days (t.localDays + -k + 719468) k hk1 hk2
  have e : t.localDays + -k + 719468 + k = t.localDays + 719468 := by omega
  rw [e] at h
  exact dayOfMonth_shift _ _ k hk1 hk2 h

theorem hoursExceed_Sub (t u : Time) (h : Int) (h0 : 0 ≤ h) (h1 : h ≤ 1000000) :
    hoursExceed (t.Sub u) h = decide (h * 3600000000000 < t.wall - u.wall) := by
  unfold hoursExceed Time.Sub
  split_ifs <;> simp only [decide_eq_decide] <;> omega

/-! ## Facts about the store -/

theorem One_ok_iff (db : DB) (name : String) (r : Habit) :
    db.One name = .ok r ↔ db.records.find? (fun x => x.Name == name) = some r := by
  unfold DB.One
  cases h : db.records.find? (fun x => x.Name == name) <;> simp

theorem One_ok_mem (db : DB) (name : String) (r : Habit) (h : db.One name = .ok r) :
    r ∈ db.records ∧ r.Name = name := by
  rw [One_ok_iff] at h
  refine ⟨List.mem_of_find?_eq_some h, ?_⟩
  have := List.find?_some h
  simpa using this

theorem any_ID_of_mem (l : List Habit) (r : Habit) (h : r ∈ l) (i : Int) (hi : i = r.ID) :
    l.any (fun x => x.ID == i) = true := by
  rw [List.any_eq_true]
  exact ⟨r, h, by simp [hi]⟩

theorem Update_ok (db : DB) (r h : Habit) (hr : r ∈ db.records) (hid : h.ID = r.ID) :
    db.Update h = .ok (replaced db h) := by
  unfold DB.Update replaced
  rw [any_ID_of_mem db.records r hr h.ID hid]
  rfl

theorem find_replaced (l : List Habit) (name : String) (r h : Habit)
    (hf : l.find? (fun x => x.Name == name) = some r) (hn : h.Name = name) (hid : h.ID = r.ID) :
    (l.map (fun x => if x.ID == h.ID then h else x)).find? (fun x => x.Name == name)
      = some h := by
  induction l with
  | nil => simp at hf
  | cons x xs ih =>
    rw [List.map_cons, List.find?_cons]
    rw [List.find?_cons] at hf
    by_cases hx : x.ID = h.ID
    · simp [hx, hn]
    · by_cases hname : x.Name = name
      · simp only [hname, beq_self_eq_true] at hf
        have : x = r := by simpa using hf
        exact absurd (this ▸ hid.symm) hx
      · have hb : (x.Name == name) = false := by simpa using hname
        simp only [hb] at hf
        have hi : (x.ID == h.ID) = false := by simpa using hx
        simp only [hi, hb, Bool.false_eq_true, if_false]
        exact ih hf

theorem One_replaced (db : DB) (r h : Habit) (hone : db.One h.Name = .ok r)
    (hid : h.ID = r.ID) : (replaced db h).One h.Name = .ok h := by
  rw [One_ok_iff] at hone ⊢
  exact find_replaced db.records h.Name r h hone rfl hid

theorem Save_eq_of_absent (db : DB) (h : Habit)
    (habs : db.records.any (fun r => r.Name == h.Name) = false) :
    db.Save h = .ok (inserted db h, stamped db h) := by
  unfold DB.Save inserted stamped
  simp [habs]

theorem Save_eq_of_present (db : DB) (h : Habit)
    (hpres : db.records.any (fun r => r.Name == h.Name) = true) :
    db.Save h = .error .ErrAlreadyExists := by
  unfold DB.Save
  simp [hpres]

theorem find_append_new (l : List Habit) (h : Habit)
    (habs : l.any (fun r => r.Name == h.Name) = false) :
    (l ++ [h]).find? (fun x => x.Name == h.Name) = some h := by
  have hn : l.find? (fun x => x.Name == h.Name) = none := by
    rw [List.find?_eq_none]
    intro x hx hp
    have : l.any (fun r => r.Name == h.Name) = true := List.any_eq_true.mpr ⟨x, hx, hp⟩
    rw [habs] at this
    exact Bool.noConfusion this
  rw [List.find?_append, hn]
  simp

/-! ## What the tracker methods compute -/

theorem AddHabit_absent (db : DB) (h : Habit)
    (habs : db.records.any (fun r => r.Name == h.Name) = false) :
    AddHabit db h = { db := inserted db h, habit := stamped db h, err := none } := by
  unfold AddHabit
  rw [Save_eq_of_absent db h habs]

theorem AddHabit_present (db : DB) (h : Habit)
    (hpres : db.records.any (fun r => r.Name == h.Name) = true) :
    AddHabit db h = { db := db, habit := h, err := some ("habit already exists: " ++ h.Name) } := by
  unfold AddHabit
  rw [Save_eq_of_present db h hpres]
  simp

theorem AddHabit_ok_absent (db : DB) (h : Habit) (hadd : (AddHabit db h).err = none) :
    db.records.any (fun r => r.Name == h.Name) = false := by
  cases hp : db.records.any (fun r => r.Name == h.Name)
  · rfl
  · rw [AddHabit_present db h hp] at hadd
    simp at hadd

theorem GetHabit_found (db : DB) (p r : Habit) (hone : db.One p.Name = .ok r) :
    GetHabit db p = (r, none) := by
  unfold GetHabit
  rw [hone]

theorem UpdateHabit_rejected (db : DB) (now : Time) (p r : Habit)
    (hone : db.One p.Name = .ok r) (hday : now.Day = r.LastRecordedEntry.Day) :
    UpdateHabit db now p
      = { db := db, habit := r, err := some "habit already recorded for today" } := by
  unfold UpdateHabit
  rw [GetHabit_found db p r hone]
  simp [hday]

theorem UpdateHabit_advanced (db : DB) (now : Time) (p r : Habit)
    (hone : db.One p.Name = .ok r) (hday : now.Day ≠ r.LastRecordedEntry.Day) :
    UpdateHabit db now p
      = { db := replaced db (advanced 48 now r), habit := advanced 48 now r, err := none } := by
  have hmem := (One_ok_mem db p.Name r hone).1
  have hupd : ∀ h : Habit, h.ID = r.ID → db.Update h = .ok (replaced db h) :=
    fun h hid => Update_ok db r h hmem hid
  unfold UpdateHabit
  rw [GetHabit_found db p r hone]
  simp only [hday, if_false]
  by_cases hx : hoursExceed (now.Sub r.LastRecordedEntry) 48 = true
  · simp only [hx, if_true]
    rw [hupd { ID := r.ID, Name := r.Name, LastRecordedEntry := now, Streak := wrapInt32 (0 + 1) }
      rfl]
    simp [advanced, hx]
  · simp only [hx, Bool.false_eq_true, if_false]
    rw [hupd
      { ID := r.ID, Name := r.Name, LastRecordedEntry := now, Streak := wrapInt32 (r.Streak + 1) }
      rfl]
    simp [advanced, hx]


theorem UpdateHabit24_rejected (db : DB) (now : Time) (name : String) (r : Habit)
    (hone : db.One name = .ok r) (hday : now.Day = r.LastRecordedEntry.Day) :
    HabitGo.UpdateHabit db now name
      = { db := db, habit := r, err := some "habit already recorded for today", stdout := [] } := by
  unfold HabitGo.UpdateHabit HabitGo.GetHabit
  rw [hone]
  simp [hday]

theorem UpdateHabit24_advanced (db : DB) (now : Time) (name : String) (r : Habit)
    (hone : db.One name = .ok r) (hday : now.Day ≠ r.LastRecordedEntry.Day) :
    (HabitGo.UpdateHabit db now name).db = replaced db (advanced 24 now r) ∧
    (HabitGo.UpdateHabit db now name).habit = advanced 24 now r ∧
    (HabitGo.UpdateHabit db now name).err = none := by
  have hmem := (One_ok_mem db name r hone).1
  have hupd : ∀ h : Habit, h.ID = r.ID → db.Update h = .ok (replaced db h) :=
    fun h hid => Update_ok db r h hmem hid
  unfold HabitGo.UpdateHabit HabitGo.GetHabit
  rw [hone]
  simp only [hday, if_false]
  by_cases hx : hoursExceed (now.Sub r.LastRecordedEntry) 24 = true
  · simp only [hx, if_true]
    rw [hupd { ID := r.ID, Name := r.Name, LastRecordedEntry := now, Streak := wrapInt32 (0 + 1) }
      rfl]
    simp [advanced, hx]
  · simp only [hx, Bool.false_eq_true, if_false]
    rw [hupd
      { ID := r.ID, Name := r.Name, LastRecordedEntry := now, Streak := wrapInt32 (r.Streak + 1) }
      rfl]
    simp [advanced, hx]

theorem wrapInt32_id (x : Int) (h0 : -2147483648 ≤ x) (h1 : x ≤ 2147483647) :
    wrapInt32 x = x := by
  unfold wrapInt32
  omega

theorem GetHabit_none_iff (db : DB) (p r : Habit) :
    GetHabit db p = (r, none) ↔ db.One p.Name = .ok r := by
  unfold GetHabit
  cases h : db.One p.Name with
  | error e => by_cases he : e = StormErr.ErrNotFound <;> simp [he]
  | ok found => simp

theorem One_inserted (db : DB) (h : Habit) (name : String) (hn : name = h.Name)
    (habs : db.records.any (fun r => r.Name == h.Name) = false) :
    (inserted db h).One name = .ok (stamped db h) := by
  rw [One_ok_iff, hn]
  exact find_append_new db.records (stamped db h) habs

theorem advanced_Name (hours : Int) (now : Time) (r : Habit) :
    (advanced hours now r).Name = r.Name := rfl

theorem advanced_ID (hours : Int) (now : Time) (r : Habit) :
    (advanced hours now r).ID = r.ID := rfl

theorem advanced_LastRecordedEntry (hours : Int) (now : Time) (r : Habit) :
    (advanced hours now r).LastRecordedEntry = now := rfl

theorem advanced_Streak (hours : Int) (now : Time) (r : Habit) (h0 : 0 ≤ hours)
    (h1 : hours ≤ 1000000) :
    (advanced hours now r).Streak
      = wrapInt32 ((if hours * 3600000000000 < now.wall - r.LastRecordedEntry.wall then 0
          else r.Streak) + 1) := by
  unfold advanced
  simp only [hoursExceed_Sub now r.LastRecordedEntry hours h0 h1, decide_eq_true_eq]

theorem One_replaced_advanced (db : DB) (hours : Int) (now : Time) (name : String) (r : Habit)
    (hone : db.One name = .ok r) :
    (replaced db (advanced hours now r)).One name = .ok (advanced hours now r) := by
  have hn := (One_ok_mem db name r hone).2
  have h := One_replaced db r (advanced hours now r) (by rw [advanced_Name, hn]; exact hone) rfl
  rw [advanced_Name, hn] at h
  exact h

/-- What the guard of `UpdateHabit` tests: a stored record is rejected as already
recorded exactly when `now` and its `LastRecordedEntry` have the same day of
the month. -/
theorem UpdateHabit_rejected_iff (db : DB) (now : Time) (p r : Habit)
    (hget : GetHabit db p = (r, none)) :
    (UpdateHabit db now p).err = some "habit already recorded for today" ↔
      now.Day = r.LastRecordedEntry.Day := by
  have hone := (GetHabit_none_iff db p r).mp hget
  by_cases hday : now.Day = r.LastRecordedEntry.Day
  · rw [UpdateHabit_rejected db now p r hone hday]
    exact ⟨fun _ => hday, fun _ => rfl⟩
  · rw [UpdateHabit_advanced db now p r hone hday]
    exact ⟨fun h => Option.noConfusion h, fun h => absurd h hday⟩

/-! ## The store invariant -/

theorem WF_empty : DB.empty.WF := by
  unfold DB.WF DB.empty
  simp

theorem not_mem_names_of_absent (l : List Habit) (name : String)
    (habs : l.any (fun r => r.Name == name) = false) : name ∉ l.map (fun r => r.Name) := by
  intro hmem
  rw [List.mem_map] at hmem
  obtain ⟨x, hx, hname⟩ := hmem
  have : l.any (fun r => r.Name == name) = true :=
    List.any_eq_true.mpr ⟨x, hx, by simp [hname]⟩
  rw [habs] at this
  exact Bool.noConfusion this

theorem WF_inserted (db : DB) (h : Habit) (hwf : db.WF)
    (habs : db.records.any (fun r => r.Name == h.Name) = false) : (inserted db h).WF := by
  obtain ⟨hnames, hids, hseq⟩ := hwf
  unfold DB.WF inserted stamped
  simp only [List.map_append, List.map_cons, List.map_nil]
  refine ⟨?_, ?_, ?_⟩
  · rw [List.nodup_append]
    refine ⟨hnames, List.nodup_singleton _, ?_⟩
    intro a ha hb
    rw [List.mem_singleton] at hb
    exact not_mem_names_of_absent db.records h.Name habs (hb ▸ ha)
  · rw [List.nodup_append]
    refine ⟨hids, List.nodup_singleton _, ?_⟩
    intro a ha hb
    rw [List.mem_singleton] at hb
    rw [List.mem_map] at ha
    obtain ⟨x, hx, hxa⟩ := ha
    have := hseq x hx
    omega
  · intro r hr
    rw [List.mem_append, List.mem_singleton] at hr
    rcases hr with hr | hr
    · have := hseq r hr
      omega
    · rw [hr]

theorem replaced_keeps_keys (db : DB) (r h : Habit)
    (hids : (db.records.map (fun x => x.ID)).Nodup) (hr : r ∈ db.records)
    (hid : h.ID = r.ID) (hn : h.Name = r.Name) (x : Habit) (hx : x ∈ db.records) :
    (if x.ID == h.ID then h else x).Name = x.Name ∧ (if x.ID == h.ID then h else x).ID = x.ID := by
  by_cases hxi : x.ID = h.ID
  · have hxr : x = r := List.inj_on_of_nodup_map hids hx hr (hxi.trans hid)
    have hb : (x.ID == h.ID) = true := by simpa using hxi
    rw [if_pos hb, hxr]
    exact ⟨hn, hid⟩
  · have hb : (x.ID == h.ID) = false := by simpa using hxi
    simp [hb]

theorem WF_replaced (db : DB) (r h : Habit) (hwf : db.WF) (hr : r ∈ db.records)
    (hid : h.ID = r.ID) (hn : h.Name = r.Name) : (replaced db h).WF := by
  obtain ⟨hnames, hids, hseq⟩ := hwf
  have hk := replaced_keeps_keys db r h hids hr hid hn
  unfold DB.WF replaced
  simp only [List.map_map]
  refine ⟨?_, ?_, ?_⟩
  · have e : List.map ((fun r => r.Name) ∘ fun r => if (r.ID == h.ID) = true then h else r)
        db.records = List.map (fun x => x.Name) db.records :=
      List.map_congr_left (fun x hx => (hk x hx).1)
    rw [e]
    exact hnames
  · have e : List.map ((fun r => r.ID) ∘ fun r => if (r.ID == h.ID) = true then h else r)
        db.records = List.map (fun x => x.ID) db.records :=
      List.map_congr_left (fun x hx => (hk x hx).2)
    rw [e]
    exact hids
  · intro y hy
    rw [List.mem_map] at hy
    obtain ⟨x, hx, hxy⟩ := hy
    rw [← hxy, (hk x hx).2]
    exact hseq x hx

theorem WF_AddHabit (db : DB) (h : Habit) (hwf : db.WF) : (AddHabit db h).db.WF := by
  cases hp : db.records.any (fun r => r.Name == h.Name)
  · rw [AddHabit_absent db h hp]
    exact WF_inserted db h hwf hp
  · rw [AddHabit_present db h hp]
    exact hwf

theorem UpdateHabit_missing (db : DB) (now : Time) (p : Habit) (e : StormErr)
    (hone : db.One p.Name = .error e) :
    (UpdateHabit db now p).db = db ∧ (UpdateHabit db now p).err ≠ none := by
  unfold UpdateHabit GetHabit
  rw [hone]
  by_cases he : e = StormErr.ErrNotFound <;> simp [he]

theorem UpdateHabit_cases (db : DB) (now : Time) (p : Habit) :
    ((UpdateHabit db now p).db = db ∧ (UpdateHabit db now p).err ≠ none) ∨
    ∃ r, db.One p.Name = .ok r ∧ now.Day ≠ r.LastRecordedEntry.Day ∧
      UpdateHabit db now p
        = { db := replaced db (advanced 48 now r), habit := advanced 48 now r, err := none } := by
  cases hone : db.One p.Name with
  | error e => exact Or.inl (UpdateHabit_missing db now p e hone)
  | ok r =>
    by_cases hday : now.Day = r.LastRecordedEntry.Day
    · left
      rw [UpdateHabit_rejected db now p r hone hday]
      simp
    · exact Or.inr ⟨r, rfl, hday, UpdateHabit_advanced db now p r hone hday⟩

theorem WF_UpdateHabit (db : DB) (now : Time) (p : Habit) (hwf : db.WF) :
    (UpdateHabit db now p).db.WF := by
  rcases UpdateHabit_cases db now p with h | ⟨r, hone, _, heq⟩
  · rw [h.1]
    exact hwf
  · rw [heq]
    exact WF_replaced db r (advanced 48 now r) hwf (One_ok_mem db p.Name r hone).1 rfl rfl

theorem WF_step (db : DB) (c : Call) (hwf : db.WF) : (step db c).WF := by
  cases c with
  | add h => exact WF_AddHabit db h hwf
  | update now p => exact WF_UpdateHabit db now p hwf

theorem WF_run (calls : List Call) (db : DB) (hwf : db.WF) : (run db calls).WF := by
  induction calls generalizing db with
  | nil => exact hwf
  | cons c cs ih => exact ih (step db c) (WF_step db c hwf)

theorem any_name_after_AddHabit (db : DB) (h : Habit) :
    (AddHabit db h).db.records.any (fun r => r.Name == h.Name) = true := by
  cases hp : db.records.any (fun r => r.Name == h.Name)
  · rw [AddHabit_absent db h hp]
    unfold inserted stamped
    simp
  · rw [AddHabit_present db h hp]
    exact hp

/-! ## Bounds on the stored streaks -/

theorem advanced_Streak_bounds (hours : Int) (now : Time) (r : Habit) (B : Int)
    (h0 : 0 ≤ r.Streak) (h1 : r.Streak ≤ B) (hB : B < maxInt32) :
    ((advanced hours now r).Streak = r.Streak + 1 ∨ (advanced hours now r).Streak = 1) ∧
    0 ≤ (advanced hours now r).Streak ∧ (advanced hours now r).Streak ≤ B + 1 := by
  unfold maxInt32 at hB
  unfold advanced
  simp only
  split_ifs
  · rw [wrapInt32_id _ (by omega) (by omega)]
    omega
  · rw [wrapInt32_id _ (by omega) (by omega)]
    omega

theorem bounded_step (db : DB) (c : Call) (B : Int)
    (hdb : ∀ r ∈ db.records, 0 ≤ r.Streak ∧ r.Streak ≤ B)
    (hc : ∀ h ∈ addedHabits [c], 0 ≤ h.Streak ∧ h.Streak ≤ B) (hB : B < maxInt32) :
    ∀ r ∈ (step db c).records, 0 ≤ r.Streak ∧ r.Streak ≤ B + 1 := by
  cases c with
  | add h =>
    have hh := hc h (by simp [addedHabits])
    show ∀ r ∈ (AddHabit db h).db.records, 0 ≤ r.Streak ∧ r.Streak ≤ B + 1
    cases hp : db.records.any (fun r => r.Name == h.Name)
    · rw [AddHabit_absent db h hp]
      intro r hr
      unfold inserted at hr
      rw [List.mem_append, List.mem_singleton] at hr
      rcases hr with hr | hr
      · have := hdb r hr
        omega
      · rw [hr]
        show 0 ≤ h.Streak ∧ h.Streak ≤ B + 1
        omega
    · rw [AddHabit_present db h hp]
      intro r hr
      have := hdb r hr
      omega
  | update now p =>
    show ∀ r ∈ (UpdateHabit db now p).db.records, 0 ≤ r.Streak ∧ r.Streak ≤ B + 1
    rcases UpdateHabit_cases db now p with h | ⟨r, hone, _, heq⟩
    · rw [h.1]
      intro r hr
      have := hdb r hr
      omega
    · rw [heq]
      have hr := hdb r (One_ok_mem db p.Name r hone).1
      have hadv := (advanced_Streak_bounds 48 now r B hr.1 hr.2 hB).2
      intro y hy
      unfold replaced at hy
      rw [List.mem_map] at hy
      obtain ⟨x, hx, hxy⟩ := hy
      rw [← hxy]
      split_ifs
      · exact hadv
      · have := hdb x hx
        omega

theorem bounded_run (calls : List Call) (db : DB) (B : Int)
    (hdb : ∀ r ∈ db.records, 0 ≤ r.Streak ∧ r.Streak ≤ B)
    (hadd : ∀ h ∈ addedHabits calls, 0 ≤ h.Streak ∧ h.Streak ≤ B)
    (hB : B + calls.length ≤ maxInt32) :
    ∀ r ∈ (run db calls).records, 0 ≤ r.Streak ∧ r.Streak ≤ B + calls.length := by
  induction calls generalizing db B with
  | nil =>
    intro r hr
    have := hdb r hr
    simp only [List.length_nil, Nat.cast_zero, add_zero]
    exact this
  | cons c cs ih =>
    simp only [List.length_cons, Nat.cast_add, Nat.cast_one] at hB ⊢
    have hsplit : ∀ h, h ∈ addedHabits [c] ∨ h ∈ addedHabits cs → h ∈ addedHabits (c :: cs) := by
      intro h hh
      cases c with
      | add a =>
        simp only [addedHabits, List.mem_cons, List.mem_singleton, List.not_mem_nil,
          or_false] at hh ⊢
        exact hh
      | update now p =>
        simp only [addedHabits, List.not_mem_nil, false_or] at hh ⊢
        exact hh
    have hstep := bounded_step db c B hdb (fun h hh => hadd h (hsplit h (Or.inl hh)))
      (by have := Int.ofNat_nonneg cs.length; simp only [Int.ofNat_eq_coe] at this; omega)
    have hrest : ∀ h ∈ addedHabits cs, 0 ≤ h.Streak ∧ h.Streak ≤ B + 1 := by
      intro h hh
      have := hadd h (hsplit h (Or.inr hh))
      omega
    have := ih (step db c) (B + 1) hstep hrest (by omega)
    intro r hr
    have hb := this r hr
    omega

/-! ## Joining words -/

theorem intercalate_go_append (a acc sep : String) (rest : List String) :
    String.intercalate.go (a ++ acc) sep rest = a ++ String.intercalate.go acc sep rest := by
  induction rest generalizing acc with
  | nil => simp [String.intercalate.go]
  | cons x xs ih =>
    simp only [String.intercalate.go]
    rw [← ih (acc ++ sep ++ x)]
    simp only [String.append_assoc]

/-! ## The claims -/

/-- C1 (evaluation at the failing input). The stored record was last recorded on
2024-01-15 and the call is made on 2024-02-15: the two dates are not the same
calendar day (the months differ), yet `UpdateHabit` of both source files
rejects the update with "habit already recorded for today" and leaves the store
as it was, because the sources compare the day of the month only. -/
theorem UpdateHabit_rejects_same_day_of_other_month :
    ¬ feb15.SameCalendarDay jan15 ∧
    feb15.Month ≠ jan15.Month ∧ feb15.Day = jan15.Day ∧
    UpdateHabit (storeWith "test" jan15 3) feb15 (probe "test" feb15)
      = { db := storeWith "test" jan15 3,
          habit := { ID := 1, Name := "test", LastRecordedEntry := jan15, Streak := 3 },
          err := some "habit already recorded for today" } ∧
    (HabitGo.UpdateHabit (storeWith "test" jan15 3) feb15 "test").err
      = some "habit already recorded for today" := by
  decide


/-- C2. A habit freshly created by `AddHabit` with streak 1 and
`LastRecordedEntry = T` is updated at a time `now` on the same calendar date as
`T` (through any record `p` carrying its name): `UpdateHabit` fails with
"habit already recorded for today", the record it returns has streak 1, and the
store, hence the stored streak and timestamp, is exactly what it was before
the call. -/
theorem UpdateHabit_same_day_after_AddHabit (db : DB) (h p : Habit) (T now : Time)
    (hs : h.Streak = 1) (hT : h.LastRecordedEntry = T) (hadd : (AddHabit db h).err = none)
    (hp : p.Name = h.Name) (hday : now.SameCalendarDay T) :
    (UpdateHabit (AddHabit db h).db now p).err = some "habit already recorded for today" ∧
    (UpdateHabit (AddHabit db h).db now p).habit.Streak = 1 ∧
    (UpdateHabit (AddHabit db h).db now p).db = (AddHabit db h).db ∧
    GetHabit (UpdateHabit (AddHabit db h).db now p).db p = ((AddHabit db h).habit, none) ∧
    (AddHabit db h).habit.Streak = 1 ∧ (AddHabit db h).habit.LastRecordedEntry = T := by
  have habs := AddHabit_ok_absent db h hadd
  have hone : (inserted db h).One p.Name = .ok (stamped db h) := One_inserted db h p.Name hp habs
  have hd : now.Day = (stamped db h).LastRecordedEntry.Day := by
    show now.Day = h.LastRecordedEntry.Day
    rw [hT]
    exact hday.2.2
  rw [AddHabit_absent db h habs]
  simp only
  rw [UpdateHabit_rejected (inserted db h) now p (stamped db h) hone hd]
  refine ⟨rfl, hs, rfl, ?_, hs, hT⟩
  exact (GetHabit_none_iff _ _ _).mpr hone

/-- C2, at a concrete input: a habit created at noon of 2024-01-15 and updated
again twelve hours minus one nanosecond later, still on 2024-01-15. -/
theorem UpdateHabit_same_day_after_AddHabit_witness :
    (UpdateHabit (AddHabit DB.empty (probe "test" jan15)).db
        { wall := 1705363199999999999, offset := 0 } (probe "test" jan15)).err
      = some "habit already recorded for today" ∧
    (UpdateHabit (AddHabit DB.empty (probe "test" jan15)).db
        { wall := 1705363199999999999, offset := 0 } (probe "test" jan15)).habit.Streak = 1 :=
  have h := UpdateHabit_same_day_after_AddHabit DB.empty (probe "test" jan15)
    (probe "test" jan15) jan15 { wall := 1705363199999999999, offset := 0 }
    rfl rfl (by decide) rfl (by decide)
  ⟨h.1, h.2.1⟩

/-- C3 (counterexample). The stored streak is the largest `int32`, 2147483647,
and the habit was last recorded one calendar day before `now`: `UpdateHabit`
succeeds, but the streak it yields is -2147483648, not 2147483648. -/
theorem UpdateHabit_wraps_at_maxInt32 :
    GetHabit (storeWith "test" (jan15.AddDays (-1)) 2147483647) (probe "test" jan15)
      = ({ ID := 1, Name := "test", LastRecordedEntry := jan15.AddDays (-1),
           Streak := 2147483647 }, none) ∧
    (UpdateHabit (storeWith "test" (jan15.AddDays (-1)) 2147483647) jan15
      (probe "test" jan15)).err = none ∧
    (UpdateHabit (storeWith "test" (jan15.AddDays (-1)) 2147483647) jan15
      (probe "test" jan15)).habit.Streak = -2147483648 ∧
    (UpdateHabit (storeWith "test" (jan15.AddDays (-1)) 2147483647) jan15
      (probe "test" jan15)).habit.Streak ≠ 2147483647 + 1 := by
  decide

/-- C3 (amended). For every current time `now` and every streak `S` below the
largest `int32`: if the stored habit has `LastRecordedEntry` equal to `now` minus
one calendar day and streak `S`, then `UpdateHabit` of `habitfield.go` succeeds
and yields a record with streak `S + 1` and `LastRecordedEntry = now`, and that
record is the one the store holds afterwards. -/
theorem UpdateHabit_continues_after_one_day (db : DB) (now : Time) (p r : Habit) (S : Int)
    (hget : GetHabit db p = (r, none)) (hlast : r.LastRecordedEntry = now.AddDays (-1))
    (hS : r.Streak = S) (hlo : minInt32 ≤ S) (hhi : S < maxInt32) :
    (UpdateHabit db now p).err = none ∧
    (UpdateHabit db now p).habit.Streak = S + 1 ∧
    (UpdateHabit db now p).habit.LastRecordedEntry = now ∧
    GetHabit (UpdateHabit db now p).db p = ((UpdateHabit db now p).habit, none) := by
  have hone := (GetHabit_none_iff db p r).mp hget
  have hday : now.Day ≠ r.LastRecordedEntry.Day := by
    rw [hlast]
    exact Day_AddDays_ne now 1 (by decide) (by decide)
  rw [UpdateHabit_advanced db now p r hone hday]
  refine ⟨rfl, ?_, rfl, ?_⟩
  · show (advanced 48 now r).Streak = S + 1
    rw [advanced_Streak 48 now r (by decide) (by decide), hlast, hS]
    have hw : ¬ (48 * 3600000000000 < now.wall - (now.AddDays (-1)).wall) := by
      unfold Time.AddDays
      simp only
      omega
    rw [if_neg hw]
    unfold minInt32 at hlo
    unfold maxInt32 at hhi
    exact wrapInt32_id _ (by omega) (by omega)
  · exact (GetHabit_none_iff _ _ _).mpr (One_replaced_advanced db 48 now p.Name r hone)

/-- C3 (amended), at a concrete input: streak 1 recorded one day before noon of
2024-01-15, as in `TestStreakUpdatingOfHabits`. -/
theorem UpdateHabit_continues_after_one_day_witness :
    (UpdateHabit (storeWith "test" (jan15.AddDays (-1)) 1) jan15 (probe "test" jan15)).err = none ∧
    (UpdateHabit (storeWith "test" (jan15.AddDays (-1)) 1) jan15
      (probe "test" jan15)).habit.Streak = 1 + 1 :=
  have h := UpdateHabit_continues_after_one_day (storeWith "test" (jan15.AddDays (-1)) 1) jan15
    (probe "test" jan15)
    { ID := 1, Name := "test", LastRecordedEntry := jan15.AddDays (-1), Streak := 1 } 1
    (by decide) rfl rfl (by decide) (by decide)
  ⟨h.1, h.2.1⟩

/-- C4. For every current time `now` and every stored streak (in particular
every `S > 0`): if the stored habit has `LastRecordedEntry` equal to `now` minus
seven calendar days, then `UpdateHabit`, called with any record `p` carrying the
habit's name (`habitfield.go`) or with the name itself (`habit.go`), succeeds and
yields streak 1 and `LastRecordedEntry = now`; the store then holds that
record. -/
theorem UpdateHabit_resets_after_seven_days (db : DB) (now : Time) (p r : Habit)
    (hget : GetHabit db p = (r, none)) (hlast : r.LastRecordedEntry = now.AddDays (-7)) :
    ((UpdateHabit db now p).err = none ∧
      (UpdateHabit db now p).habit.Streak = 1 ∧
      (UpdateHabit db now p).habit.LastRecordedEntry = now ∧
      GetHabit (UpdateHabit db now p).db p = ((UpdateHabit db now p).habit, none)) ∧
    ((HabitGo.UpdateHabit db now p.Name).err = none ∧
      (HabitGo.UpdateHabit db now p.Name).habit.Streak = 1 ∧
      (HabitGo.UpdateHabit db now p.Name).habit.LastRecordedEntry = now ∧
      HabitGo.GetHabit (HabitGo.UpdateHabit db now p.Name).db p.Name
        = ((HabitGo.UpdateHabit db now p.Name).habit, none)) := by
  have hone := (GetHabit_none_iff db p r).mp hget
  have hday : now.Day ≠ r.LastRecordedEntry.Day := by
    rw [hlast]
    exact Day_AddDays_ne now 7 (by decide) (by decide)
  have hstreak : ∀ hours : Int, 0 ≤ hours → hours ≤ 48 → (advanced hours now r).Streak = 1 := by
    intro hours h0 h1
    rw [advanced_Streak hours now r h0 (by omega), hlast]
    have hw : hours * 3600000000000 < now.wall - (now.AddDays (-7)).wall := by
      unfold Time.AddDays
      simp only
      omega
    rw [if_pos hw]
    decide
  obtain ⟨h24db, h24habit, h24err⟩ := UpdateHabit24_advanced db now p.Name r hone hday
  constructor
  · rw [UpdateHabit_advanced db now p r hone hday]
    exact ⟨rfl, hstreak 48 (by decide) (by decide), rfl,
      (GetHabit_none_iff _ _ _).mpr (One_replaced_advanced db 48 now p.Name r hone)⟩
  · rw [h24db, h24habit]
    refine ⟨h24err, hstreak 24 (by decide) (by decide), rfl, ?_⟩
    unfold HabitGo.GetHabit
    rw [One_replaced_advanced db 24 now p.Name r hone]

/-- C4, at a concrete input: streak 7 recorded seven days before noon of
2024-01-15, as in `TestStreakResetsIfNotAddedDaily`. -/
theorem UpdateHabit_resets_after_seven_days_witness :
    (UpdateHabit (storeWith "test" (jan15.AddDays (-7)) 7) jan15 (probe "test" jan15)).err = none ∧
    (UpdateHabit (storeWith "test" (jan15.AddDays (-7)) 7) jan15
      (probe "test" jan15)).habit.Streak = 1 :=
  have h := UpdateHabit_resets_after_seven_days (storeWith "test" (jan15.AddDays (-7)) 7) jan15
    (probe "test" jan15)
    { ID := 1, Name := "test", LastRecordedEntry := jan15.AddDays (-7), Streak := 7 }
    (by decide) rfl
  ⟨h.1.1, h.1.2.1⟩


/-- C5. For every name and every store state, of two `AddHabit` calls in a row
for that name the first either succeeds or fails with "habit already exists",
and the second always fails with "habit already exists: <name>"; the second
call leaves the store, hence the stored record for the name, exactly as the
first call left it; and no store reached from the empty one by `AddHabit`
and `UpdateHabit` calls holds two records with the same name. -/
theorem AddHabit_twice_fails_second (db : DB) (h1 h2 : Habit) (hN : h2.Name = h1.Name) :
    ((AddHabit db h1).err = none ∨
      (AddHabit db h1).err = some ("habit already exists: " ++ h1.Name)) ∧
    (AddHabit (AddHabit db h1).db h2).err = some ("habit already exists: " ++ h1.Name) ∧
    (AddHabit (AddHabit db h1).db h2).db = (AddHabit db h1).db ∧
    (∃ r, GetHabit (AddHabit db h1).db h1 = (r, none) ∧
      GetHabit (AddHabit (AddHabit db h1).db h2).db h2 = (r, none)) ∧
    (∀ calls : List Call, ((run DB.empty calls).records.map (fun r => r.Name)).Nodup) := by
  have hpres : (AddHabit db h1).db.records.any (fun r => r.Name == h2.Name) = true := by
    rw [hN]
    exact any_name_after_AddHabit db h1
  have hsecond := AddHabit_present (AddHabit db h1).db h2 hpres
  refine ⟨?_, ?_, ?_, ?_, ?_⟩
  · cases hp : db.records.any (fun r => r.Name == h1.Name)
    · rw [AddHabit_absent db h1 hp]
      exact Or.inl rfl
    · rw [AddHabit_present db h1 hp]
      exact Or.inr rfl
  · rw [hsecond, hN]
  · rw [hsecond]
  · have hany := any_name_after_AddHabit db h1
    rw [List.any_eq_true] at hany
    obtain ⟨x, hx, hname⟩ := hany
    cases hfind : (AddHabit db h1).db.records.find? (fun r => r.Name == h1.Name) with
    | none =>
      rw [List.find?_eq_none] at hfind
      exact absurd hname (hfind x hx)
    | some r =>
      have hone := (One_ok_iff (AddHabit db h1).db h1.Name r).mpr hfind
      refine ⟨r, GetHabit_found _ h1 r hone, ?_⟩
      rw [hsecond]
      exact GetHabit_found _ h2 r (by rw [hN]; exact hone)
  · intro calls
    exact (WF_run calls DB.empty WF_empty).1

/-- C5, at a concrete input: the record of the tests added twice to an empty
store. -/
theorem AddHabit_twice_fails_second_witness :
    (AddHabit DB.empty (probe "test" jan15)).err = none ∧
    (AddHabit (AddHabit DB.empty (probe "test" jan15)).db (probe "test" feb15)).err
      = some "habit already exists: test" ∧
    (AddHabit (AddHabit DB.empty (probe "test" jan15)).db (probe "test" feb15)).db
      = (AddHabit DB.empty (probe "test" jan15)).db :=
  have h := AddHabit_twice_fails_second DB.empty (probe "test" jan15) (probe "test" feb15) rfl
  ⟨by decide, h.2.1, h.2.2.1⟩

/-- C6 (counterexample). `AddHabit` of `habitfield.go` stores the record it is
given: created with streak 7, as in `TestStreakResetsIfNotAddedDaily`, the
record an immediate `GetHabit` returns has streak 7, not 1. -/
theorem GetHabit_after_AddHabit_streak_seven :
    (AddHabit DB.empty { ID := 0, Name := "test", LastRecordedEntry := jan15, Streak := 7 }).err
      = none ∧
    GetHabit
        (AddHabit DB.empty { ID := 0, Name := "test", LastRecordedEntry := jan15, Streak := 7 }).db
        (probe "test" feb15)
      = ({ ID := 1, Name := "test", LastRecordedEntry := jan15, Streak := 7 }, none) ∧
    (GetHabit
        (AddHabit DB.empty { ID := 0, Name := "test", LastRecordedEntry := jan15, Streak := 7 }).db
        (probe "test" feb15)).1.Streak ≠ 1 := by
  decide

/-- C6 (amended). For every record successfully created via `AddHabit`, an
immediate `GetHabit` by the same name succeeds and returns the created record,
with identical name and the streak it was created with: the streak of the
record passed to `AddHabit` of `habitfield.go` (1 when the caller passes 1), and
1 for `AddHabit(name)` of `habit.go`. -/
theorem GetHabit_after_AddHabit (db : DB) (h p : Habit) (hp : p.Name = h.Name)
    (hadd : (AddHabit db h).err = none) :
    GetHabit (AddHabit db h).db p = ((AddHabit db h).habit, none) ∧
    (AddHabit db h).habit.Name = h.Name ∧
    (AddHabit db h).habit.Streak = h.Streak ∧
    (h.Streak = 1 → (GetHabit (AddHabit db h).db p).1.Streak = 1) ∧
    (∀ now : Time, (HabitGo.AddHabit db now h.Name).err = none →
      HabitGo.GetHabit (HabitGo.AddHabit db now h.Name).db h.Name
          = ((HabitGo.AddHabit db now h.Name).habit, none) ∧
        (HabitGo.AddHabit db now h.Name).habit.Name = h.Name ∧
        (HabitGo.AddHabit db now h.Name).habit.Streak = 1) := by
  have habs := AddHabit_ok_absent db h hadd
  have hone : (inserted db h).One p.Name = .ok (stamped db h) := One_inserted db h p.Name hp habs
  have hget := (GetHabit_none_iff (inserted db h) p (stamped db h)).mpr hone
  rw [AddHabit_absent db h habs]
  refine ⟨hget, rfl, rfl, ?_, ?_⟩
  · intro hs
    show (GetHabit (inserted db h) p).1.Streak = 1
    rw [hget]
    exact hs
  · intro now _
    have hsave := Save_eq_of_absent db
      { ID := 0, Name := h.Name, LastRecordedEntry := now, Streak := 1 } habs
    have hone2 := One_inserted db
      { ID := 0, Name := h.Name, LastRecordedEntry := now, Streak := 1 } h.Name rfl habs
    unfold HabitGo.AddHabit HabitGo.GetHabit
    simp only [hsave, hone2]
    exact ⟨trivial, rfl, rfl⟩

/-- C6 (amended), at a concrete input: the record of `TestRetrievingAStoredHabit`. -/
theorem GetHabit_after_AddHabit_witness :
    GetHabit (AddHabit DB.empty (probe "test" jan15)).db (probe "test" feb15)
      = ((AddHabit DB.empty (probe "test" jan15)).habit, none) ∧
    (AddHabit DB.empty (probe "test" jan15)).habit.Name = "test" ∧
    (AddHabit DB.empty (probe "test" jan15)).habit.Streak = 1 :=
  have h := GetHabit_after_AddHabit DB.empty (probe "test" jan15) (probe "test" feb15) rfl
    (by decide)
  ⟨h.1, h.2.1, h.2.2.1⟩

/-- C7 (counterexample). The stored `LastRecordedEntry` is 2024-01-20, five days
after `now` = 2024-01-15: `UpdateHabit` succeeds and sets `LastRecordedEntry` to
`now`, an instant earlier than the previous value. -/
theorem UpdateHabit_moves_LastRecordedEntry_back :
    (UpdateHabit (storeWith "test" (jan15.AddDays 5) 3) jan15 (probe "test" jan15)).err = none ∧
    (UpdateHabit (storeWith "test" (jan15.AddDays 5) 3) jan15
      (probe "test" jan15)).habit.LastRecordedEntry = jan15 ∧
    (UpdateHabit (storeWith "test" (jan15.AddDays 5) 3) jan15
      (probe "test" jan15)).db = storeWith "test" jan15 4 ∧
    jan15.wall < (jan15.AddDays 5).wall := by
  decide

/-- C7 (amended). For every stored record `r` and every current time `now`: if
`UpdateHabit` succeeds then the new `LastRecordedEntry`, returned and stored,
equals `now`, and it is not earlier than the previous one whenever `now` itself
is not earlier than the previous one; a rejected update leaves the store, and
with it the stored `LastRecordedEntry`, unchanged. -/
theorem UpdateHabit_LastRecordedEntry (db : DB) (now : Time) (p r : Habit)
    (hget : GetHabit db p = (r, none)) :
    ((UpdateHabit db now p).err = none →
      (UpdateHabit db now p).habit.LastRecordedEntry = now ∧
      GetHabit (UpdateHabit db now p).db p = ((UpdateHabit db now p).habit, none) ∧
      (r.LastRecordedEntry.wall ≤ now.wall →
        r.LastRecordedEntry.wall ≤ (UpdateHabit db now p).habit.LastRecordedEntry.wall)) ∧
    ((UpdateHabit db now p).err ≠ none →
      (UpdateHabit db now p).db = db ∧ GetHabit (UpdateHabit db now p).db p = (r, none)) := by
  have hone := (GetHabit_none_iff db p r).mp hget
  by_cases hday : now.Day = r.LastRecordedEntry.Day
  · rw [UpdateHabit_rejected db now p r hone hday]
    exact ⟨fun h => Option.noConfusion h, fun _ => ⟨rfl, hget⟩⟩
  · rw [UpdateHabit_advanced db now p r hone hday]
    refine ⟨fun _ => ⟨rfl, ?_, fun hle => hle⟩, fun h => absurd rfl h⟩
    exact (GetHabit_none_iff _ _ _).mpr (One_replaced_advanced db 48 now p.Name r hone)

/-- C7 (amended), at a concrete input: a record of 2024-01-15 updated on
2024-02-15 by the record's own name. -/
theorem UpdateHabit_LastRecordedEntry_witness :
    (UpdateHabit (storeWith "test" jan15 3) (feb15.AddDays 1)
      (probe "test" feb15)).habit.LastRecordedEntry = feb15.AddDays 1 :=
  (UpdateHabit_LastRecordedEntry (storeWith "test" jan15 3) (feb15.AddDays 1) (probe "test" feb15)
    { ID := 1, Name := "test", LastRecordedEntry := jan15, Streak := 3 } (by decide)).1
    (by decide) |>.1


/-- C8 (counterexample). `AddHabit` of `habitfield.go` stores the streak of the
record it is given; given -5 on an empty store, the store reached by that one
call holds a record with a negative streak. -/
theorem AddHabit_stores_negative_streak :
    (run DB.empty
        [Call.add { ID := 0, Name := "test", LastRecordedEntry := jan15, Streak := -5 }]).records
      = [{ ID := 1, Name := "test", LastRecordedEntry := jan15, Streak := -5 }] ∧
    ¬ ∀ r ∈ (run DB.empty
        [Call.add { ID := 0, Name := "test", LastRecordedEntry := jan15, Streak := -5 }]).records,
      0 ≤ r.Streak := by
  decide

/-- C8 (amended). In the store reached from the empty one by a sequence of
`AddHabit` and `UpdateHabit` calls in which every `AddHabit` is given a streak
between 0 and `B`, as long as `B` plus the number of calls stays below the
largest `int32`, every stored record has a streak between 0 and `B` plus the
number of calls; and an `UpdateHabit` call on a record stored there either adds
exactly 1 to its streak, or sets it to 1, or is rejected and leaves the store
unchanged, the record returned being the one the store then holds. -/
theorem streak_nonneg_of_nonneg_adds (calls : List Call) (B : Int)
    (hadd : ∀ h ∈ addedHabits calls, 0 ≤ h.Streak ∧ h.Streak ≤ B)
    (hB : B + calls.length < maxInt32) :
    (∀ x ∈ (run DB.empty calls).records, 0 ≤ x.Streak ∧ x.Streak ≤ B + calls.length) ∧
    (∀ (now : Time) (p r : Habit), GetHabit (run DB.empty calls) p = (r, none) →
      ((UpdateHabit (run DB.empty calls) now p).habit.Streak = r.Streak + 1 ∨
        (UpdateHabit (run DB.empty calls) now p).habit.Streak = 1 ∨
        ((UpdateHabit (run DB.empty calls) now p).habit.Streak = r.Streak ∧
          (UpdateHabit (run DB.empty calls) now p).db = run DB.empty calls)) ∧
      GetHabit (UpdateHabit (run DB.empty calls) now p).db p
        = ((UpdateHabit (run DB.empty calls) now p).habit, none) ∧
      0 ≤ (UpdateHabit (run DB.empty calls) now p).habit.Streak) := by
  have hall := bounded_run calls DB.empty B (fun x hx => absurd hx (List.not_mem_nil x)) hadd
    (by omega)
  refine ⟨hall, ?_⟩
  intro now p r hget
  have hone := (GetHabit_none_iff _ p r).mp hget
  have hr := hall r (One_ok_mem _ p.Name r hone).1
  by_cases hday : now.Day = r.LastRecordedEntry.Day
  · rw [UpdateHabit_rejected _ now p r hone hday]
    exact ⟨Or.inr (Or.inr ⟨rfl, rfl⟩), hget, hr.1⟩
  · rw [UpdateHabit_advanced _ now p r hone hday]
    have hadv := advanced_Streak_bounds 48 now r (B + calls.length) hr.1 hr.2 hB
    refine ⟨?_, ?_, hadv.2.1⟩
    · rcases hadv.1 with h | h
      · exact Or.inl h
      · exact Or.inr (Or.inl h)
    · exact (GetHabit_none_iff _ _ _).mpr (One_replaced_advanced _ 48 now p.Name r hone)

/-- C8 (amended), at a concrete input: a habit created with streak 1 on
2024-01-14, updated on 2024-01-15 and once more on 2024-02-16. -/
theorem streak_nonneg_of_nonneg_adds_witness :
    (∀ x ∈ (run DB.empty [Call.add (probe "test" (jan15.AddDays (-1))),
        Call.update jan15 (probe "test" jan15)]).records, 0 ≤ x.Streak ∧ x.Streak ≤ 3) ∧
    (UpdateHabit (run DB.empty [Call.add (probe "test" (jan15.AddDays (-1))),
        Call.update jan15 (probe "test" jan15)]) (feb15.AddDays 1)
      (probe "test" feb15)).habit.Streak = 1 :=
  have h := streak_nonneg_of_nonneg_adds
    [Call.add (probe "test" (jan15.AddDays (-1))), Call.update jan15 (probe "test" jan15)] 1
    (by decide) (by decide)
  ⟨h.1, by decide⟩

/-- C9. For every non-empty argument list: a first token other than "habit"
gives the error "<first token> is not a habit command"; the list `["habit"]`
gives the error that directs the user to 'habit help'; and "habit" followed by
one or more words, the first of them neither "help" nor "list", gives no error
and the habit name made of those words joined by single spaces. Nothing is
written and `ListHabits` is not called in these cases. -/
theorem ProcessUserInput_shape (help first : String) (rest : List String) :
    (first ≠ "habit" →
      ProcessUserInput help (first :: rest)
        = some { habit := "", err := some (first ++ " is not a habit command"), written := "",
                 listed := false }) ∧
    ProcessUserInput help ["habit"]
      = some { habit := "",
               err := some ("Habit is a command line tool for tracking habits. " ++
                 "To get started, type \x27habit help\x27"),
               written := "", listed := false } ∧
    (first ≠ "help" → first ≠ "list" →
      ProcessUserInput help ("habit" :: first :: rest)
        = some { habit := stringsJoin (first :: rest) " ", err := none, written := "",
                 listed := false }) ∧
    stringsJoin [first] " " = first ∧
    (∀ second : String, stringsJoin (first :: second :: rest) " "
      = first ++ " " ++ stringsJoin (second :: rest) " ") := by
  refine ⟨?_, ?_, ?_, ?_, ?_⟩
  · intro hne
    unfold ProcessUserInput
    simp [hne]
  · unfold ProcessUserInput
    simp
  · intro hhelp hlist
    unfold ProcessUserInput
    simp [hhelp, hlist]
  · unfold stringsJoin String.intercalate
    simp [String.intercalate.go]
  · intro second
    unfold stringsJoin String.intercalate
    simp only [String.intercalate.go]
    rw [String.append_assoc, String.append_assoc, intercalate_go_append,
      ← intercalate_go_append " " second]

/-- C9, on the three inputs of `TestProcessUserInput` and a name of two words. -/
theorem ProcessUserInput_shape_witness :
    (ProcessUserInput PrintHelp ["test"]).map (fun o => (o.habit, o.err))
      = some ("", some "test is not a habit command") ∧
    (ProcessUserInput PrintHelp ["habit"]).map (fun o => (o.habit, o.err))
      = some ("", some ("Habit is a command line tool for tracking habits. " ++
          "To get started, type \x27habit help\x27")) ∧
    (ProcessUserInput PrintHelp ["habit", "test"]).map (fun o => (o.habit, o.err))
      = some ("test", none) ∧
    (ProcessUserInput PrintHelp ["habit", "drink", "water"]).map (fun o => (o.habit, o.err))
      = some ("drink water", none) := by
  have h1 := (ProcessUserInput_shape PrintHelp "test" []).1 (by decide)
  have h2 := (ProcessUserInput_shape PrintHelp "test" []).2.1
  have h3 := (ProcessUserInput_shape PrintHelp "test" []).2.2.1 (by decide) (by decide)
  have h4 := (ProcessUserInput_shape PrintHelp "drink" ["water"]).2.2.1 (by decide) (by decide)
  rw [h1, h2, h3, h4]
  decide

/-- C10 (counterexample). With `habit.go` (threshold 24 hours), a stored streak of
2147483647 and exactly 24 hours elapsed, the update is not rejected and is a
continuation, but the resulting streak is -2147483648, not the old streak
plus 1. -/
theorem UpdateHabit24_wraps_at_threshold :
    jan15.wall - (jan15.AddDays (-1)).wall = 24 * 3600000000000 ∧
    (HabitGo.UpdateHabit (storeWith "test" (jan15.AddDays (-1)) 2147483647) jan15 "test").err
      = none ∧
    (HabitGo.UpdateHabit (storeWith "test" (jan15.AddDays (-1)) 2147483647) jan15
      "test").habit.Streak = -2147483648 ∧
    (HabitGo.UpdateHabit (storeWith "test" (jan15.AddDays (-1)) 2147483647) jan15
      "test").habit.Streak ≠ 2147483647 + 1 := by
  decide

/-- C10 (amended). For every `UpdateHabit` call that is not rejected (the record
`r` is stored under the name and `now` falls on another day of the month), with
`elapsed` = `now` minus the stored `LastRecordedEntry`: the call succeeds,
`LastRecordedEntry` is set to `now`, the resulting streak is 1 when `elapsed`
strictly exceeds the threshold, and it is the old streak plus 1 otherwise when
the old streak is below the largest `int32`; so `elapsed` equal to the threshold
is a continuation. The threshold is 48 hours in `habitfield.go` and 24 hours in
`habit.go`. -/
theorem UpdateHabit_threshold_rule (db : DB) (now : Time) (p r : Habit)
    (hget : GetHabit db p = (r, none)) (hday : now.Day ≠ r.LastRecordedEntry.Day)
    (hlo : minInt32 ≤ r.Streak) :
    ((UpdateHabit db now p).err = none ∧
      (UpdateHabit db now p).habit.LastRecordedEntry = now ∧
      (48 * 3600000000000 < now.wall - r.LastRecordedEntry.wall →
        (UpdateHabit db now p).habit.Streak = 1) ∧
      (now.wall - r.LastRecordedEntry.wall ≤ 48 * 3600000000000 → r.Streak < maxInt32 →
        (UpdateHabit db now p).habit.Streak = r.Streak + 1)) ∧
    ((HabitGo.UpdateHabit db now p.Name).err = none ∧
      (HabitGo.UpdateHabit db now p.Name).habit.LastRecordedEntry = now ∧
      (24 * 3600000000000 < now.wall - r.LastRecordedEntry.wall →
        (HabitGo.UpdateHabit db now p.Name).habit.Streak = 1) ∧
      (now.wall - r.LastRecordedEntry.wall ≤ 24 * 3600000000000 → r.Streak < maxInt32 →
        (HabitGo.UpdateHabit db now p.Name).habit.Streak = r.Streak + 1)) := by
  have hone := (GetHabit_none_iff db p r).mp hget
  have hrule : ∀ hours : Int, 0 ≤ hours → hours ≤ 48 →
      (hours * 3600000000000 < now.wall - r.LastRecordedEntry.wall →
        (advanced hours now r).Streak = 1) ∧
      (now.wall - r.LastRecordedEntry.wall ≤ hours * 3600000000000 → r.Streak < maxInt32 →
        (advanced hours now r).Streak = r.Streak + 1) := by
    intro hours h0 h1
    rw [advanced_Streak hours now r h0 (by omega)]
    constructor
    · intro hgt
      rw [if_pos hgt]
      decide
    · intro hle hhi
      rw [if_neg (by omega)]
      unfold minInt32 at hlo
      unfold maxInt32 at hhi
      exact wrapInt32_id _ (by omega) (by omega)
  obtain ⟨_, h24habit, h24err⟩ := UpdateHabit24_advanced db now p.Name r hone hday
  constructor
  · rw [UpdateHabit_advanced db now p r hone hday]
    exact ⟨rfl, rfl, hrule 48 (by decide) (by decide)⟩
  · rw [h24habit]
    exact ⟨h24err, rfl, hrule 24 (by decide) (by decide)⟩

/-- C10 (amended), at a concrete input: streak 3 recorded exactly 48 hours before
`now`, a continuation under the 48-hour threshold and a reset under the 24-hour
one. -/
theorem UpdateHabit_threshold_rule_witness :
    (UpdateHabit (storeWith "test" (jan15.AddDays (-2)) 3) jan15
      (probe "test" jan15)).habit.Streak = 3 + 1 ∧
    (HabitGo.UpdateHabit (storeWith "test" (jan15.AddDays (-2)) 3) jan15 "test").habit.Streak
      = 1 :=
  have h := UpdateHabit_threshold_rule (storeWith "test" (jan15.AddDays (-2)) 3) jan15
    (probe "test" jan15)
    { ID := 1, Name := "test", LastRecordedEntry := jan15.AddDays (-2), Streak := 3 }
    (by decide) (by decide) (by decide)
  ⟨h.1.2.2.2 (by decide) (by decide), h.2.2.2.1 (by decide)⟩

end Habitfield
